import Mathlib

/-!
Verification of the component orchestration and lifecycle engine of the
laravel-mix repository, shallowly embedded from
`src/src/components/ComponentRegistrar.js` and `src/setup/webpack.config.mjs`
(the latter contains the driver function, the `Manifest` class and the `Mix`
class).

JavaScript objects used as string-keyed dictionaries are embedded as
insertion-ordered association lists: assigning to an existing key overwrites
it in place, assigning to a fresh key appends it at the end, exactly as
property assignment behaves on a plain JS object (which can never hold a
duplicate key).
-/

/-- JS property read `obj[k]`: the value bound to `k`, if any. -/
def getKey {β : Type} (l : List (String × β)) (k : String) : Option β :=
  (l.find? (fun p => p.1 = k)).map (fun p => p.2)

/-- JS property write `obj[k] = v`: overwrite the binding in place when the
key exists, append at the end otherwise. -/
def setKey {β : Type} : List (String × β) → String → β → List (String × β)
  | [], k, v => [(k, v)]
  | p :: t, k, v => if p.1 = k then (k, v) :: t else p :: setKey t k v

/-!
## Component registry — `src/src/components/ComponentRegistrar.js`

A component instance.  `names` holds the resolved alias list computed at the
top of `registerComponent` (either `[].concat(component.name())` or the
derived lower-cased constructor name — in both cases a concrete list of
strings).  The optional `register` hook is embedded by `hasRegister`
(presence) together with `registerCalls`, the observable trace of the
argument lists the hook has been invoked with, in order.  Arguments are
abstract values (`Nat`).  `mixExtras` is the list of extra method names the
optional `component.mix()` accessor contributes (empty when absent).
-/

structure Component where
  names : List String
  passive : Bool
  hasRegister : Bool
  activated : Bool
  caller : Option String
  registerCalls : List (List Nat)
  mixExtras : List String
deriving Repr, DecidableEq

/-- An entry of the shared API surface `this.components`: either the
generated composite method bound to the component with index `cid`, or an
extra method merged directly from `component.mix()` (its body is
component-supplied code, outside the registrar). -/
inductive ApiEntry where
  | composite (cid : Nat)
  | direct (cid : Nat) (method : String)
deriving Repr, DecidableEq

/-- The registrar's mutable state: the store of component instances
(indexed by installation order), the shared API surface `this.components`,
and the `mix.components` record of invoked aliases.

`Components.record` (src/src/components/Components.js is not in the
snapshot) is modelled from the spec: "records the component instance under
that alias for later introspection" — an alias-keyed map write. -/
structure RegistrarState where
  comps : List Component
  api : List (String × ApiEntry)
  recorded : List (String × Nat)
deriving Repr, DecidableEq

/-- The body of the generated composite method for alias `name`, closed over
the component `cid` (ComponentRegistrar.js lines 151-161):
record the component under the alias, set its `caller` to the alias used,
invoke its own `register` hook with the call's arguments when present,
set `activated = true`.  (The JS closure then returns `this.components`;
the caller of this definition reads the returned state's `api`.) -/
def callComposite (s : RegistrarState) (name : String) (cid : Nat)
    (args : List Nat) : RegistrarState :=
  match s.comps.get? cid with
  | none => s
  | some c =>
    { s with
      recorded := setKey s.recorded name cid
      comps := s.comps.set cid
        { c with
          caller := some name
          registerCalls :=
            if c.hasRegister then c.registerCalls ++ [args] else c.registerCalls
          activated := true } }

/-- User-code invocation of the API surface method `name` with `args`:
looks the method up on `this.components` and runs it.  A composite method
performs `callComposite` and returns the API surface itself; a `direct`
method's body is component-supplied (its effect lies outside the
registrar), and a missing method is a JS `TypeError`. -/
def invoke (s : RegistrarState) (name : String) (args : List Nat) :
    Option (RegistrarState × List (String × ApiEntry)) :=
  match getKey s.api name with
  | some (ApiEntry.composite cid) =>
    let s' := callComposite s name cid args
    some (s', s'.api)
  | some (ApiEntry.direct _ _) => none
  | none => none

/-- The per-alias body of `registerComponent` (the local `register` closure,
lines 150-176): install the composite method under `name`, invoke it at once
with no arguments when the component is passive, then merge the extra
methods of `component.mix()` (if any) directly onto the API surface. -/
def registerAlias (s : RegistrarState) (cid : Nat) (name : String) :
    RegistrarState :=
  let s1 := { s with api := setKey s.api name (ApiEntry.composite cid) }
  let s2 :=
    match s1.comps.get? cid with
    | some c => if c.passive then callComposite s1 name cid [] else s1
    | none => s1
  match s2.comps.get? cid with
  | some c =>
    c.mixExtras.foldl
      (fun st m => { st with api := setKey st.api m (ApiEntry.direct cid m) })
      s2
  | none => s2

/-- Embeds `registerComponent(component)` (lines 136-179): resolve the alias names
and run the `register` closure for each of them in order. -/
def registerComponent (s : RegistrarState) (cid : Nat) : RegistrarState :=
  match s.comps.get? cid with
  | some c => c.names.foldl (fun st n => registerAlias st cid n) s
  | none => s

/-- The `registerComponent` part of `install(ComponentDefinition)` (line 86):
append the freshly constructed component instance to the store and register
it.  (The two `mix.listen` subscriptions of `install` live on the Mix
dispatcher and are embedded with the orchestrator below.) -/
def installComponent (s : RegistrarState) (c : Component) : RegistrarState :=
  registerComponent { s with comps := s.comps ++ [c] } s.comps.length

/-!
## Orchestrator — `Mix` class in `src/setup/webpack.config.mjs`

A build group (scope).  `src/Build/BuildGroup.js` is not in the snapshot, so
its surface is modelled from the spec: a name, a buildability predicate
(`shouldBeBuilt`, read by `Mix.buildableGroups`), and the single finalized
configuration object its local config-emission routine produces
(`cfg`, the value of `group.config()`; configuration objects are abstract
values `Nat`). -/
structure BuildGroup where
  name : String
  shouldBeBuilt : Bool
  cfg : Nat
deriving Repr, DecidableEq

/-- The state of the `Mix` singleton.  Fields follow the constructor
(webpack.config.mjs lines 198-255) and the globals the methods touch:

* `groups` — `this.groups`, in declaration order (root group first).
* `current` — the `#current` context stack, top at the end of the list.
* `globalCurrent` — the name recorded by the last `makeCurrent()`
  (`global.Mix` / context globals; an observable for stack restoration).
* `booted` / `initialized` — the two lifecycle flags.
* `warnCount` — number of `console.warn` emissions.
* `envLoaded` — whether `Dotenv.config()` has run (external effect marker).
* `publicPath` — `this.config.publicPath`.
* `seesLaravel` — the environment fact `File.exists('./artisan')` consulted
  by `this.sees('laravel')` during boot.
* `initSubsCount` / `gatherSubsCount` — how many handlers are subscribed on
  the dispatcher for `init` and `internal:gather-dependencies`.
* `fireLog` — the ordered trace of `dispatcher.fire` calls.
* `depQueue` — the `Dependencies` queue: one abstract entry appended per
  gather handler per fire (external module, observable growth only).
* `installRuns` — invocations of `Dependencies.installQueued()`.
* `moduleEvaluated` — whether `import(this.paths.mix())` has evaluated the
  user's config module (ES modules evaluate once; later imports are cached).
* `defaultIsFunction` — whether that module's default export is a function.
* `loadRuns` — invocations of the user's default-export callback. -/
structure MixState where
  groups : List BuildGroup
  current : List BuildGroup
  globalCurrent : Option String
  booted : Bool
  initialized : Bool
  warnCount : Nat
  envLoaded : Bool
  publicPath : String
  seesLaravel : Bool
  initSubsCount : Nat
  gatherSubsCount : Nat
  fireLog : List String
  depQueue : List Nat
  installRuns : Nat
  moduleEvaluated : Bool
  defaultIsFunction : Bool
  loadRuns : Nat
deriving Repr, DecidableEq

namespace Mix

/-- Embeds `get currentGroup()` (lines 498-500): `this.#current[this.#current.length - 1]`. -/
def currentGroup (s : MixState) : Option BuildGroup :=
  s.current.getLast?

/-- Embeds `pushCurrent(group)` (lines 480-482): `this.#current.push(group.makeCurrent())`.
`group.makeCurrent()` installs the group's context globally and returns the
group; the global installation is observable through `globalCurrent`. -/
def pushCurrent (s : MixState) (g : BuildGroup) : MixState :=
  { s with current := s.current ++ [g], globalCurrent := some g.name }

/-- Embeds `popCurrent()` (lines 485-492): a no-op at depth 1, otherwise pop the top
and re-install the new top's context. -/
def popCurrent (s : MixState) : MixState :=
  if s.current.length = 1 then s
  else
    let c := s.current.dropLast
    { s with
      current := c
      globalCurrent := (c.getLast?).map (fun g => g.name) |>.orElse
        (fun _ => s.globalCurrent) }

/-- Embeds `dispatcher.fire(event, data)` — the handler side effects visible to the
orchestrator state: the fire is logged; the subscribed
`internal:gather-dependencies` handlers each queue one dependency entry
(ComponentRegistrar.js lines 88-101, for an activated-or-passive component
with a `dependencies` hook). -/
def fireEvent (s : MixState) (e : String) : MixState :=
  { s with
    fireLog := s.fireLog ++ [e]
    depQueue :=
      if e = "internal:gather-dependencies" then
        s.depQueue ++ List.range s.gatherSubsCount
      else s.depQueue }

/-- Embeds `BuildGroup.whileCurrent(fn)`.  Modelled from the spec:
`src/Build/BuildGroup.js` is not in the snapshot; per §4.2 it "pushes a
scope, invokes `fn` (possibly asynchronous), and guarantees `pop` runs on
every exit path, including a thrown/rejected `fn`" — i.e. push, run `fn`,
pop in a `finally`, and hand back `fn`'s outcome (value or error). -/
def whileCurrent (s : MixState) (g : BuildGroup)
    (fn : MixState → MixState × Except String Unit) :
    MixState × Except String Unit :=
  let pushed := pushCurrent s g
  let res := fn pushed
  (popCurrent res.1, res.2)

/-- Embeds `dispatch(event, data)` (lines 458-466):
`this.currentGroup.whileCurrent(() => this.dispatcher.fire(event, data))`. -/
def dispatch (s : MixState) (e : String) : MixState :=
  match currentGroup s with
  | none => s
  | some g => (whileCurrent s g (fun st => (fireEvent st e, Except.ok ()))).1

/-- Embeds `makeCurrent()` (lines 521-530): install the globals and make the root
group (`this.groups[0]`) current. -/
def makeCurrent (s : MixState) : MixState :=
  match s.groups.head? with
  | some g => { s with globalCurrent := some g.name }
  | none => s

/-- Embeds `boot()` (lines 308-327): a no-op when already booted; otherwise set
`booted`, load `.env`, default the public path for Laravel apps, subscribe
the hot-reload recorder on `init`, and make the root group current. -/
def boot (s : MixState) : MixState :=
  if s.booted then s
  else
    makeCurrent
      { s with
        booted := true
        envLoaded := true
        publicPath := if s.seesLaravel then "public" else s.publicPath
        initSubsCount := s.initSubsCount + 1 }

/-- Embeds `load()` (lines 272-282): import the user's mix config (the ES module
evaluates only on the first import — later imports hit the module cache) and,
when its default export is a function, run that callback inside the root
scope via `whileCurrent`.  The callback run is observable as `loadRuns`. -/
def load (s : MixState) : MixState :=
  let s1 := { s with moduleEvaluated := true }
  if s1.defaultIsFunction then
    match currentGroup s1 with
    | none => s1
    | some g =>
      (whileCurrent s1 g
        (fun st => ({ st with loadRuns := st.loadRuns + 1 }, Except.ok ()))).1
  else s1

/-- Embeds `installDependencies()` (lines 332-336): fire the gather event through
`dispatch`, then hand the queue to the external installer
(`Dependencies.installQueued()`). -/
def installDependencies (s : MixState) : MixState :=
  let s1 := dispatch s "internal:gather-dependencies"
  { s1 with installRuns := s1.installRuns + 1 }

/-- Embeds `init()` (lines 348-357): guarded by `initialized`; first call sets the
flag and fires the `init` event. -/
def init (s : MixState) : MixState :=
  if s.initialized then s
  else dispatch { s with initialized := true } "init"

/-- Embeds `get buildableGroups()` (lines 300-302): the declared groups whose
buildability predicate holds, in declaration order. -/
def buildableGroups (s : MixState) : List BuildGroup :=
  s.groups.filter (fun g => g.shouldBeBuilt)

/-- Embeds `build()` (lines 288-298): when not booted, warn and boot lazily; then
emit one configuration per buildable group (`group.config()`), collected in
declaration order (`Promise.all` preserves the input order). -/
def build (s : MixState) : MixState × List Nat :=
  let s1 :=
    if s.booted then s
    else boot { s with warnCount := s.warnCount + 1 }
  (s1, (buildableGroups s1).map (fun g => g.cfg))

end Mix

/-!
## Manifest — `Manifest` class in `src/setup/webpack.config.mjs`
-/

/-- A JS regex `\w` character: `[A-Za-z0-9_]`. -/
def isWordChar (c : Char) : Bool :=
  (('a' ≤ c && c ≤ 'z') || ('A' ≤ c && c ≤ 'Z') || ('0' ≤ c && c ≤ '9') || c = '_')

/-- Embeds `str.replace(/\?id=\w{20}/, '')` on the character list: delete the first
occurrence of `?id=` followed by (at least) 20 word characters — the match
consumes exactly `?id=` plus 20 word characters — and keep the rest
verbatim; scanning resumes one position later after a failed match attempt,
as in the regex engine. -/
def stripIdAux : List Char → List Char
  | [] => []
  | '?' :: 'i' :: 'd' :: '=' :: t =>
    if 20 ≤ t.length ∧ (t.take 20).all isWordChar then t.drop 20
    else '?' :: stripIdAux ('i' :: 'd' :: '=' :: t)
  | c :: rest => c :: stripIdAux rest

/-- Embeds `filePath.replace(/\?id=\w{20}/, '')` (Manifest.add, line 64). -/
def stripIdSuffix (s : String) : String :=
  ⟨stripIdAux s.data⟩

/-- Embeds `normalizePath(filePath)` (lines 145-159): strip a leading
`publicPath` prefix (only when `publicPath` is truthy, i.e. non-empty),
turn backslashes into forward slashes, and force a leading `/`.  JS strings
are handled at the character level: `startsWith` is a character-prefix
test, `substring(n)` drops `n` characters. -/
def normalizePath (publicPath : String) (filePath : String) : String :=
  let pd := publicPath.data
  let p1 :=
    if (!pd.isEmpty) && pd.isPrefixOf filePath.data then
      filePath.data.drop pd.length
    else filePath.data
  let p2 := p1.map (fun c => if c = '\\' then '/' else c)
  ⟨if p2.head? = some '/' then p2 else '/' :: p2⟩

/-- Helper for `collapseSlashes`: emit the tail, dropping each `/` that
directly follows an emitted `/`. -/
def collapseAux : Char → List Char → List Char
  | _, [] => []
  | prev, c :: t =>
    if prev = '/' && c = '/' then collapseAux prev t
    else c :: collapseAux c t

/-- Collapse each run of `/` to a single `/` (the part of Node's
`path.posix.normalize` exercised here: no `.` or `..` segments occur in
manifest paths). -/
def collapseSlashes : List Char → List Char
  | [] => []
  | c :: t => c :: collapseAux c t

/-- Node `path.posix.join(a, b)` for segments free of `.` and `..`
components (the only shapes produced here): concatenate with `/`, skipping
empty segments, then collapse duplicate slashes; the join of nothing is
`"."`. -/
def posixJoin (a b : String) : String :=
  let joined :=
    if a.data.isEmpty then b.data
    else if b.data.isEmpty then a.data
    else a.data ++ '/' :: b.data
  if joined.isEmpty then "." else ⟨collapseSlashes joined⟩

/-- Modelled from the spec: `File#version()` (src/File.js is not in the
snapshot), "a 20-character content hash" of the file's content — a
deterministic function of the content producing exactly 20 characters. -/
def hash20 (content : String) : String :=
  let n := content.data.foldl (fun h c => (h * 31 + c.toNat) % 10 ^ 20) 7
  ⟨(List.range 20).map (fun i => Char.ofNat (48 + n / 10 ^ i % 10))⟩

/-- The manifest's state: the in-memory `this.manifest` object and the
`mix.config.publicPath` it consults through the `mix` getter. -/
structure ManifestState where
  manifest : List (String × String)
  publicPath : String
deriving Repr, DecidableEq

namespace Manifest

/-- Embeds `add(filePath)` (lines 61-69): normalize, strip any `?id=<20>` suffix to
obtain the key, and map the key to the (unstripped) normalized path. -/
def add (m : ManifestState) (filePath : String) : ManifestState :=
  let fp := normalizePath m.publicPath filePath
  let original := stripIdSuffix fp
  { m with manifest := setKey m.manifest original fp }

/-- Embeds `hash(file)` (lines 76-84): hash the file's content (`content` is the
content of the file at `path.join(publicPath, file)`), normalize the path,
and map it to itself suffixed with `?id=` + the 20-character hash. -/
def hash (m : ManifestState) (file : String) (content : String) : ManifestState :=
  let h := hash20 content
  let fp := normalizePath m.publicPath file
  { m with manifest := setKey m.manifest fp (fp ++ "?id=" ++ h) }

/-- Embeds `get(file)` for a non-null `file` (lines 43-49):
`path.posix.join(publicPath, this.manifest[normalizePath(file)])`.  When no
entry exists the property read yields `undefined` and `path.posix.join`
throws a `TypeError` (its arguments must be strings) — embedded as
`Except.error`. -/
def get (m : ManifestState) (file : String) : Except String String :=
  match getKey m.manifest (normalizePath m.publicPath file) with
  | none => Except.error "TypeError: Path must be a string"
  | some served => Except.ok (posixJoin m.publicPath served)

/-- A manifest-mutating call: `add(filePath)` or `hash(file)` on a file
whose content is `content`. -/
inductive Op where
  | addOp (filePath : String)
  | hashOp (file : String) (content : String)
deriving Repr, DecidableEq

/-- Run one manifest-mutating call. -/
def applyOp (m : ManifestState) : Op → ManifestState
  | Op.addOp p => add m p
  | Op.hashOp f c => hash m f c

/-- Run a sequence of manifest-mutating calls on a fresh manifest with the
given public path (constructor, lines 32-36: `this.manifest = {}`). -/
def applyOps (publicPath : String) (ops : List Op) : ManifestState :=
  ops.foldl applyOp ⟨[], publicPath⟩

/-- The manifest key an operation writes. -/
def keyOf (publicPath : String) : Op → String
  | Op.addOp p => stripIdSuffix (normalizePath publicPath p)
  | Op.hashOp f _ => normalizePath publicPath f

end Manifest

/-- Concrete instantiation of `composite_method_contract`: a single
registered non-passive component invoked under alias `"sass"` with one
argument. -/
def wComp : Component :=
  { names := ["sass"], passive := false, hasRegister := true,
    activated := false, caller := none, registerCalls := [], mixExtras := [] }

/-- Registrar state holding `wComp` under alias `"sass"`. -/
def wReg : RegistrarState :=
  { comps := [wComp], api := [("sass", ApiEntry.composite 0)], recorded := [] }

/-- First component installed under alias `"sass"` in the C3 scenario. -/
def wC3a : Component :=
  { names := ["sass"], passive := false, hasRegister := true,
    activated := false, caller := none, registerCalls := [], mixExtras := [] }

/-- Second component installed under alias `"sass"` in the C3 scenario. -/
def wC3b : Component :=
  { names := ["sass"], passive := false, hasRegister := true,
    activated := false, caller := none, registerCalls := [], mixExtras := [] }

/-- Passive component for the C4 witness. -/
def wC4p : Component :=
  { names := ["ext"], passive := true, hasRegister := true,
    activated := false, caller := none, registerCalls := [], mixExtras := [] }

/-- Non-passive component for the C4 witness. -/
def wC4n : Component :=
  { names := ["sass"], passive := false, hasRegister := true,
    activated := false, caller := none, registerCalls := [], mixExtras := [] }

/-- The root build group of the counterexample state. -/
def wRoot : BuildGroup := { name := "Mix", shouldBeBuilt := true, cfg := 0 }

/-- A concrete, freshly booted orchestrator state: one root group, one
subscribed gather handler, a user config whose default export is a
function, nothing fired yet. -/
def wMix0 : MixState :=
  { groups := [wRoot], current := [wRoot], globalCurrent := some "Mix",
    booted := true, initialized := false, warnCount := 0, envLoaded := true,
    publicPath := "", seesLaravel := false, initSubsCount := 1,
    gatherSubsCount := 1, fireLog := [], depQueue := [], installRuns := 0,
    moduleEvaluated := false, defaultIsFunction := true, loadRuns := 0 }

/-- Buildable scope A for the C5 witness. -/
def wGroupA : BuildGroup := { name := "A", shouldBeBuilt := true, cfg := 10 }

/-- Non-buildable scope B for the C5 witness. -/
def wGroupB : BuildGroup := { name := "B", shouldBeBuilt := false, cfg := 20 }

/-- The C5 witness state: scopes A and B declared in that order. -/
def wMixAB : MixState :=
  { groups := [wGroupA, wGroupB], current := [wGroupA],
    globalCurrent := some "A", booted := true, initialized := true,
    warnCount := 0, envLoaded := true, publicPath := "", seesLaravel := false,
    initSubsCount := 0, gatherSubsCount := 0, fireLog := [], depQueue := [],
    installRuns := 0, moduleEvaluated := true, defaultIsFunction := false,
    loadRuns := 1 }

/-- The C9 witness state: identical to `wMixAB` but not yet booted. -/
def wMixUnbooted : MixState :=
  { wMixAB with booted := false }

/-- A user-visible operation on the context stack. -/
inductive StackOp where
  | pushOp (g : BuildGroup)
  | popOp
deriving Repr, DecidableEq

/-- Run one stack operation. -/
def applyStackOp (s : MixState) : StackOp → MixState
  | StackOp.pushOp g => Mix.pushCurrent s g
  | StackOp.popOp => Mix.popCurrent s

/-- Run a sequence of stack operations. -/
def applyStackOps (s : MixState) (ops : List StackOp) : MixState :=
  ops.foldl applyStackOp s

/-- A second group pushed in the C6 witness. -/
def wGroupC : BuildGroup := { name := "C", shouldBeBuilt := true, cfg := 30 }

/-- An `fn` that rejects (and leaves the stack alone) for the C7 witness. -/
def wRejectingFn (st : MixState) : MixState × Except String Unit :=
  ({ st with warnCount := st.warnCount + 7 }, Except.error "boom")

/-- Whether a character list contains two consecutive forward slashes. -/
def hasDoubleSlash : List Char → Bool
  | [] => false
  | [_] => false
  | c1 :: c2 :: rest => (c1 = '/' && c2 = '/') || hasDoubleSlash (c2 :: rest)

/-!
## Theorems
-/

theorem getKey_setKey {β : Type} (l : List (String × β)) (k k' : String) (v : β) :
    getKey (setKey l k v) k' = if k' = k then some v else getKey l k' := by
  induction l with
  | nil =>
    by_cases h : k' = k
    · subst h
      simp [getKey, setKey, List.find?]
    · have hk : ¬(k = k') := fun e => h e.symm
      simp [getKey, setKey, List.find?, h, hk]
  | cons p t ih =>
    by_cases hp : p.1 = k
    · by_cases h : k' = k
      · subst h
        simp [getKey, setKey, List.find?, hp]
      · have hk : ¬(k = k') := fun e => h e.symm
        have hpk : ¬(p.1 = k') := by rw [hp]; exact hk
        simp [getKey, setKey, List.find?, hp, h, hk, hpk]
    · by_cases hpk : p.1 = k'
      · have h : ¬(k' = k) := fun e => hp (by rw [hpk, e])
        simp [getKey, setKey, List.find?, hp, hpk, h]
      · simp only [setKey, if_neg hp, getKey, List.find?]
        rw [show (decide (p.1 = k')) = false by simpa using hpk]
        have hih := ih
        simp only [getKey] at hih
        simpa [hpk] using hih

theorem getKey_setKey_self {β : Type} (l : List (String × β)) (k : String) (v : β) :
    getKey (setKey l k v) k = some v := by
  simp [getKey_setKey]

theorem getKey_setKey_ne {β : Type} (l : List (String × β)) (k k' : String) (v : β)
    (h : k' ≠ k) : getKey (setKey l k v) k' = getKey l k' := by
  simp [getKey_setKey, h]

theorem setKey_setKey_self {β : Type} (l : List (String × β)) (k : String) (v : β) :
    setKey (setKey l k v) k v = setKey l k v := by
  induction l with
  | nil => simp [setKey]
  | cons p t ih =>
    by_cases hp : p.1 = k
    · simp [setKey, hp]
    · simp [setKey, hp, ih]

/-- C1: For every installed component and every alias it is registered
under, invoking the generated composite method with any arguments performs,
in order: it records the component instance under that alias, sets the
component's `caller` tag to the alias used, invokes the component's own
`register` hook with exactly the call's arguments when that hook exists
(silently skipping it when absent), sets the `activated` flag to `true`,
and returns the shared API surface object itself (the call leaves the API
surface, and every other component, unchanged). -/
theorem composite_method_contract (s : RegistrarState) (a : String) (cid : Nat)
    (c : Component) (args : List Nat)
    (hapi : getKey s.api a = some (ApiEntry.composite cid))
    (hc : s.comps.get? cid = some c) :
    ∃ s', invoke s a args = some (s', s'.api)
      ∧ getKey s'.recorded a = some cid
      ∧ s'.comps.get? cid = some
          { c with
            caller := some a
            registerCalls :=
              if c.hasRegister then c.registerCalls ++ [args]
              else c.registerCalls
            activated := true }
      ∧ s'.api = s.api
      ∧ (∀ j, j ≠ cid → s'.comps.get? j = s.comps.get? j) := by
  have hlt : cid < s.comps.length := by
    rcases List.get?_eq_some.mp hc with ⟨hl, _⟩
    exact hl
  refine ⟨callComposite s a cid args, ?_, ?_, ?_, ?_, ?_⟩
  · unfold invoke
    rw [hapi]
  · simp only [callComposite, hc]
    exact getKey_setKey_self _ _ _
  · simp only [callComposite, hc]
    simp [List.get?_eq_getElem?, List.getElem?_set_self', hlt]
  · simp only [callComposite, hc]
  · intro j hj
    simp only [callComposite, hc]
    simp only [List.get?_eq_getElem?]
    rw [List.getElem?_set_ne (by omega)]

theorem composite_method_contract_witness :
    getKey wReg.api "sass" = some (ApiEntry.composite 0)
    ∧ wReg.comps.get? 0 = some wComp
    ∧ ∃ s', invoke wReg "sass" [7] = some (s', s'.api)
        ∧ getKey s'.recorded "sass" = some 0
        ∧ s'.comps.get? 0 = some
            { wComp with
              caller := some "sass"
              registerCalls :=
                if wComp.hasRegister then wComp.registerCalls ++ [[7]]
                else wComp.registerCalls
              activated := true }
        ∧ s'.api = wReg.api
        ∧ (∀ j, j ≠ 0 → s'.comps.get? j = wReg.comps.get? j) :=
  ⟨rfl, rfl, composite_method_contract wReg "sass" 0 wComp [7] rfl rfl⟩

/-- Unfolding of `installComponent` for a non-passive component with a
single alias and no `component.mix()` extras: the component is appended to
the store and its composite method installed under the alias; nothing else
happens. -/
theorem installComponent_simple (s : RegistrarState) (c : Component) (a : String)
    (hn : c.names = [a]) (hp : c.passive = false) (hm : c.mixExtras = []) :
    installComponent s c =
      { comps := s.comps ++ [c]
        api := setKey s.api a (ApiEntry.composite s.comps.length)
        recorded := s.recorded } := by
  obtain ⟨ns, pa, hr, ac, ca, rc, mx⟩ := c
  simp only at hn hp hm
  subst hn hp hm
  have hget : (s.comps ++ [(⟨[a], false, hr, ac, ca, rc, []⟩ : Component)]).get? s.comps.length
      = some (⟨[a], false, hr, ac, ca, rc, []⟩ : Component) :=
    List.get?_concat_length _ _
  unfold installComponent registerComponent
  simp only [hget, List.foldl_cons, List.foldl_nil]
  unfold registerAlias
  simp [hget]

/-- Unfolding of `installComponent` for a passive component with a single
alias and no extras: the composite method is installed under the alias and
immediately invoked once with no arguments by the registry itself
(ComponentRegistrar.js lines 163-168). -/
theorem installComponent_passive (s : RegistrarState) (c : Component) (a : String)
    (hn : c.names = [a]) (hp : c.passive = true) (hm : c.mixExtras = []) :
    installComponent s c =
      { comps := s.comps ++
          [{ c with
             caller := some a
             registerCalls :=
               if c.hasRegister then c.registerCalls ++ [[]]
               else c.registerCalls
             activated := true }]
        api := setKey s.api a (ApiEntry.composite s.comps.length)
        recorded := setKey s.recorded a s.comps.length } := by
  obtain ⟨ns, pa, hr, ac, ca, rc, mx⟩ := c
  simp only at hn hp hm
  subst hn hp hm
  have hget : (s.comps ++ [(⟨[a], true, hr, ac, ca, rc, []⟩ : Component)]).get? s.comps.length
      = some (⟨[a], true, hr, ac, ca, rc, []⟩ : Component) :=
    List.get?_concat_length _ _
  have hset : ∀ (c' : Component),
      (s.comps ++ [(⟨[a], true, hr, ac, ca, rc, []⟩ : Component)]).set s.comps.length c'
        = s.comps ++ [c'] := by
    intro c'
    induction s.comps with
    | nil => rfl
    | cons x t ih => simp [List.set, ih]
  have hget2 : (s.comps ++
      [(⟨[a], true, hr, true, some a,
        if hr then rc ++ [[]] else rc, []⟩ : Component)]).get? s.comps.length
      = some (⟨[a], true, hr, true, some a, if hr then rc ++ [[]] else rc, []⟩ : Component) :=
    List.get?_concat_length _ _
  unfold installComponent registerComponent
  simp only [hget, List.foldl_cons, List.foldl_nil]
  unfold registerAlias
  simp only [hget, if_true]
  unfold callComposite
  simp only [hget, hset]
  simp [hget2]

/-- C3: For any two components installed in sequence under the same alias,
invoking that alias's composite method afterwards runs only the second
(most recently installed) component's `register` hook and records only the
second component under that alias; the alias is bound to the second
component's composite method, so the first component's composite method for
that alias is unreachable (the first component's state is untouched by the
call). -/
theorem alias_collision_last_write_wins (s : RegistrarState)
    (c1 c2 : Component) (a : String) (args : List Nat)
    (hn1 : c1.names = [a]) (hp1 : c1.passive = false) (hm1 : c1.mixExtras = [])
    (hn2 : c2.names = [a]) (hp2 : c2.passive = false) (hm2 : c2.mixExtras = [])
    (hr2 : c2.hasRegister = true) :
    getKey (installComponent (installComponent s c1) c2).api a
      = some (ApiEntry.composite (s.comps.length + 1))
    ∧ ∃ s3,
        invoke (installComponent (installComponent s c1) c2) a args
          = some (s3, s3.api)
        ∧ getKey s3.recorded a = some (s.comps.length + 1)
        ∧ s3.comps.get? (s.comps.length + 1) = some
            { c2 with
              caller := some a
              registerCalls := c2.registerCalls ++ [args]
              activated := true }
        ∧ s3.comps.get? s.comps.length = some c1 := by
  have h1 := installComponent_simple s c1 a hn1 hp1 hm1
  have h2 := installComponent_simple (installComponent s c1) c2 a hn2 hp2 hm2
  rw [h1] at h2
  simp only at h2
  have hlen : (s.comps ++ [c1]).length = s.comps.length + 1 := by simp
  rw [hlen] at h2
  rw [h1, h2]
  have hgetapi :
      getKey
        (setKey (setKey s.api a (ApiEntry.composite s.comps.length)) a
          (ApiEntry.composite (s.comps.length + 1))) a
        = some (ApiEntry.composite (s.comps.length + 1)) :=
    getKey_setKey_self _ _ _
  refine ⟨hgetapi, ?_⟩
  have hgetc2 : ((s.comps ++ [c1]) ++ [c2]).get? (s.comps.length + 1) = some c2 := by
    have := List.get?_concat_length (s.comps ++ [c1]) c2
    rwa [hlen] at this
  have hsetc2 : ∀ (c' : Component),
      ((s.comps ++ [c1]) ++ [c2]).set (s.comps.length + 1) c'
        = (s.comps ++ [c1]) ++ [c'] := by
    intro c'
    have : ∀ (l : List Component) (x : Component) (c' : Component),
        (l ++ [x]).set l.length c' = l ++ [c'] := by
      intro l x c'
      induction l with
      | nil => rfl
      | cons y t ih => simp [List.set, ih]
    have h := this (s.comps ++ [c1]) c2 c'
    rwa [hlen] at h
  refine
    ⟨callComposite
      { comps := s.comps ++ [c1] ++ [c2]
        api := setKey (setKey s.api a (ApiEntry.composite s.comps.length)) a
          (ApiEntry.composite (s.comps.length + 1))
        recorded := s.recorded }
      a (s.comps.length + 1) args, ?_, ?_, ?_, ?_⟩
  · simp only [invoke, hgetapi]
  · simp only [invoke, hgetapi, callComposite, hgetc2]
    exact getKey_setKey_self _ _ _
  · simp only [invoke, hgetapi, callComposite, hgetc2, hsetc2, hr2, if_true]
    have := List.get?_concat_length (s.comps ++ [c1])
      { c2 with
        caller := some a
        registerCalls := c2.registerCalls ++ [args]
        activated := true }
    rw [hlen, hr2] at this
    exact this
  · simp only [invoke, hgetapi, callComposite, hgetc2, hsetc2]
    have hlt : s.comps.length < (s.comps ++ [c1]).length := by simp
    rw [List.get?_append hlt]
    exact List.get?_concat_length s.comps c1

theorem alias_collision_last_write_wins_witness :
    getKey (installComponent (installComponent ⟨[], [], []⟩ wC3a) wC3b).api "sass"
      = some (ApiEntry.composite 1)
    ∧ ∃ s3,
        invoke (installComponent (installComponent ⟨[], [], []⟩ wC3a) wC3b)
          "sass" [5] = some (s3, s3.api)
        ∧ getKey s3.recorded "sass" = some 1
        ∧ s3.comps.get? 1 = some
            { wC3b with
              caller := some "sass"
              registerCalls := wC3b.registerCalls ++ [[5]]
              activated := true }
        ∧ s3.comps.get? 0 = some wC3a := by
  exact alias_collision_last_write_wins ⟨[], [], []⟩ wC3a wC3b "sass" [5]
    rfl rfl rfl rfl rfl rfl rfl

/-- C4: A component with `passive = true` has `activated = true` immediately
after install completes, with no user-code invocation of its composite
method (the registry itself invokes it once with no arguments); a component
with `passive` falsy still has `activated = false` after install, and after
the first user invocation of its composite method `activated` is `true`. -/
theorem passive_activation (s : RegistrarState) (c : Component) (a : String)
    (args : List Nat)
    (hn : c.names = [a]) (hm : c.mixExtras = []) (ha : c.activated = false) :
    (c.passive = true →
      (installComponent s c).comps.get? s.comps.length = some
        { c with
          caller := some a
          registerCalls :=
            if c.hasRegister then c.registerCalls ++ [[]] else c.registerCalls
          activated := true })
    ∧ (c.passive = false →
      (installComponent s c).comps.get? s.comps.length = some c
      ∧ ∃ s', invoke (installComponent s c) a args = some (s', s'.api)
          ∧ s'.comps.get? s.comps.length = some
              { c with
                caller := some a
                registerCalls :=
                  if c.hasRegister then c.registerCalls ++ [args]
                  else c.registerCalls
                activated := true }) := by
  constructor
  · intro hp
    rw [installComponent_passive s c a hn hp hm]
    exact List.get?_concat_length _ _
  · intro hp
    rw [installComponent_simple s c a hn hp hm]
    have hget : (s.comps ++ [c]).get? s.comps.length = some c :=
      List.get?_concat_length _ _
    refine ⟨hget, ?_⟩
    have hgetapi :
        getKey (setKey s.api a (ApiEntry.composite s.comps.length)) a
          = some (ApiEntry.composite s.comps.length) :=
      getKey_setKey_self _ _ _
    have hset : ∀ (c' : Component),
        (s.comps ++ [c]).set s.comps.length c' = s.comps ++ [c'] := by
      intro c'
      induction s.comps with
      | nil => rfl
      | cons x t ih => simp [List.set, ih]
    refine
      ⟨callComposite
        { comps := s.comps ++ [c]
          api := setKey s.api a (ApiEntry.composite s.comps.length)
          recorded := s.recorded }
        a s.comps.length args, ?_, ?_⟩
    · simp only [invoke, hgetapi]
    · simp only [invoke, hgetapi, callComposite, hget, hset]
      exact List.get?_concat_length _ _

theorem passive_activation_witness :
    ((installComponent ⟨[], [], []⟩ wC4p).comps.get? 0 = some
      { wC4p with
        caller := some "ext"
        registerCalls :=
          if wC4p.hasRegister then wC4p.registerCalls ++ [[]]
          else wC4p.registerCalls
        activated := true })
    ∧ ((installComponent ⟨[], [], []⟩ wC4n).comps.get? 0 = some wC4n
      ∧ ∃ s', invoke (installComponent ⟨[], [], []⟩ wC4n) "sass" [9]
            = some (s', s'.api)
          ∧ s'.comps.get? 0 = some
              { wC4n with
                caller := some "sass"
                registerCalls :=
                  if wC4n.hasRegister then wC4n.registerCalls ++ [[9]]
                  else wC4n.registerCalls
                activated := true }) :=
  ⟨(passive_activation ⟨[], [], []⟩ wC4p "ext" [9] rfl rfl rfl).1 rfl,
   (passive_activation ⟨[], [], []⟩ wC4n "sass" [9] rfl rfl rfl).2 rfl⟩

/-- Helper fact: `popCurrent` never touches the `initialized` flag. -/
theorem popCurrent_initialized (s : MixState) :
    (Mix.popCurrent s).initialized = s.initialized := by
  unfold Mix.popCurrent
  split <;> rfl

/-- Helper fact: `dispatch` never touches the `initialized` flag. -/
theorem dispatch_initialized (s : MixState) (e : String) :
    (Mix.dispatch s e).initialized = s.initialized := by
  unfold Mix.dispatch
  cases h : Mix.currentGroup s with
  | none => rfl
  | some g =>
    simp only [Mix.whileCurrent]
    rw [popCurrent_initialized]
    rfl

/-- C2 (amended): Of the three phases, only Init is re-entry guarded: a
second invocation of `init()` is a no-op (its effects are not repeated and
no error is raised).  `load()` and `installDependencies()` carry no such
guard — see the counterexample — though the driver invokes each exactly
once per process. -/
theorem init_reentry_noop (s : MixState) :
    Mix.init (Mix.init s) = Mix.init s := by
  by_cases h : s.initialized = true
  · simp [Mix.init, h]
  · have h1 : Mix.init s =
        Mix.dispatch { s with initialized := true } "init" := by
      simp [Mix.init, h]
    have h2 : (Mix.init s).initialized = true := by
      rw [h1, dispatch_initialized]
    rw [h1] at h2 ⊢
    simp [Mix.init, h2]

theorem lifecycle_reentry_counterexample :
    Mix.load (Mix.load wMix0) ≠ Mix.load wMix0
    ∧ Mix.installDependencies (Mix.installDependencies wMix0)
        ≠ Mix.installDependencies wMix0
    ∧ (Mix.load (Mix.load wMix0)).loadRuns = 2
    ∧ (Mix.load wMix0).loadRuns = 1
    ∧ (Mix.installDependencies (Mix.installDependencies wMix0)).fireLog
        = ["internal:gather-dependencies", "internal:gather-dependencies"]
    ∧ (Mix.installDependencies (Mix.installDependencies wMix0)).depQueue.length
        = 2
    ∧ (Mix.installDependencies wMix0).depQueue.length = 1 := by
  refine ⟨?_, ?_, by decide, by decide, by decide, by decide, by decide⟩
  · intro h
    have := congrArg MixState.loadRuns h
    revert this
    decide
  · intro h
    have := congrArg MixState.installRuns h
    revert this
    decide

/-- Helper fact: `makeCurrent` only rewrites the global context pointer. -/
theorem makeCurrent_groups (s : MixState) :
    (Mix.makeCurrent s).groups = s.groups := by
  unfold Mix.makeCurrent
  split <;> rfl

/-- Helper fact: `makeCurrent` does not warn. -/
theorem makeCurrent_warnCount (s : MixState) :
    (Mix.makeCurrent s).warnCount = s.warnCount := by
  unfold Mix.makeCurrent
  split <;> rfl

/-- Helper fact: `makeCurrent` does not touch the `booted` flag. -/
theorem makeCurrent_booted (s : MixState) :
    (Mix.makeCurrent s).booted = s.booted := by
  unfold Mix.makeCurrent
  split <;> rfl

/-- Helper fact: `boot` declares no build group. -/
theorem boot_groups (s : MixState) : (Mix.boot s).groups = s.groups := by
  unfold Mix.boot
  split
  · rfl
  · rw [makeCurrent_groups]

/-- Helper fact: `boot` does not warn. -/
theorem boot_warnCount (s : MixState) : (Mix.boot s).warnCount = s.warnCount := by
  unfold Mix.boot
  split
  · rfl
  · rw [makeCurrent_warnCount]

/-- After `boot` the orchestrator is booted. -/
theorem boot_booted (s : MixState) : (Mix.boot s).booted = true := by
  unfold Mix.boot
  by_cases h : s.booted = true
  · simpa [h] using h
  · simp only [h, if_false, Bool.false_eq_true]
    rw [makeCurrent_booted]

/-- Helper fact: `(l.filter p).map f` lists `f` of exactly the elements satisfying `p`,
in order. -/
theorem filter_map_eq_filterMap {α β : Type} (p : α → Bool) (f : α → β)
    (l : List α) :
    (l.filter p).map f
      = l.filterMap (fun x => if p x then some (f x) else none) := by
  induction l with
  | nil => rfl
  | cons x t ih =>
    by_cases h : p x <;> simp [List.filter_cons, List.filterMap_cons, h, ih]

/-- C5: The Build phase returns exactly one configuration object for each
scope whose buildability predicate is true and none for any scope whose
predicate is false, collected in scope declaration order; in particular for
declared scopes A (buildable) and B (not buildable) the result is exactly
the one configuration of A. -/
theorem build_per_buildable_scope (s : MixState) (a b : BuildGroup)
    (ha : a.shouldBeBuilt = true) (hb : b.shouldBeBuilt = false) :
    (Mix.build s).2
      = s.groups.filterMap
          (fun g => if g.shouldBeBuilt then some g.cfg else none)
    ∧ (s.groups = [a, b] → (Mix.build s).2 = [a.cfg]) := by
  have hmain : (Mix.build s).2
      = s.groups.filterMap
          (fun g => if g.shouldBeBuilt then some g.cfg else none) := by
    unfold Mix.build Mix.buildableGroups
    by_cases hbo : s.booted = true
    · simp only [hbo, if_true]
      exact filter_map_eq_filterMap _ _ _
    · have hf : s.booted = false := by
        cases h : s.booted
        · rfl
        · exact absurd h hbo
      simp only [hf, Bool.false_eq_true, if_false]
      rw [boot_groups]
      exact filter_map_eq_filterMap _ _ _
  refine ⟨hmain, fun hg => ?_⟩
  rw [hmain, hg]
  simp [List.filterMap_cons, ha, hb]

theorem build_per_buildable_scope_witness :
    (Mix.build wMixAB).2
      = wMixAB.groups.filterMap
          (fun g => if g.shouldBeBuilt then some g.cfg else none)
    ∧ (Mix.build wMixAB).2 = [wGroupA.cfg] :=
  ⟨(build_per_buildable_scope wMixAB wGroupA wGroupB rfl rfl).1,
   (build_per_buildable_scope wMixAB wGroupA wGroupB rfl rfl).2 rfl⟩

/-- C9: Invoking the top-level Build driver entry while `booted` is false
emits one (non-fatal) warning, performs bootstrap lazily, and still
produces one configuration per buildable scope; when `booted` is already
true no warning is emitted and no second bootstrap occurs (the state is
untouched). -/
theorem build_self_heals (s : MixState) :
    (Mix.build s).2
      = (s.groups.filter (fun g => g.shouldBeBuilt)).map (fun g => g.cfg)
    ∧ (s.booted = true → (Mix.build s).1 = s)
    ∧ (s.booted = false →
        (Mix.build s).1.warnCount = s.warnCount + 1
        ∧ (Mix.build s).1.booted = true) := by
  by_cases hbo : s.booted = true
  · refine ⟨?_, fun _ => ?_, fun hf => absurd hbo (by simp [hf])⟩
    · simp [Mix.build, Mix.buildableGroups, hbo]
    · simp [Mix.build, hbo]
  · have hf : s.booted = false := by
      cases h : s.booted
      · rfl
      · exact absurd h hbo
    refine ⟨?_, fun ht => absurd ht hbo, fun _ => ⟨?_, ?_⟩⟩
    · simp only [Mix.build, Mix.buildableGroups, hf, Bool.false_eq_true,
        if_false]
      rw [boot_groups]
    · simp only [Mix.build, hf, Bool.false_eq_true, if_false]
      rw [boot_warnCount]
    · simp only [Mix.build, hf, Bool.false_eq_true, if_false]
      rw [boot_booted]

theorem build_self_heals_witness :
    (Mix.build wMixUnbooted).2
      = (wMixUnbooted.groups.filter (fun g => g.shouldBeBuilt)).map
          (fun g => g.cfg)
    ∧ (Mix.build wMixUnbooted).1.warnCount = wMixUnbooted.warnCount + 1
    ∧ (Mix.build wMixUnbooted).1.booted = true
    ∧ (Mix.build wMixAB).1 = wMixAB :=
  ⟨(build_self_heals wMixUnbooted).1,
   ((build_self_heals wMixUnbooted).2.2 rfl).1,
   ((build_self_heals wMixUnbooted).2.2 rfl).2,
   (build_self_heals wMixAB).2.1 rfl⟩

/-- One push or pop keeps the stack nonempty and keeps its bottom (root)
element. -/
theorem stackOp_preserves_root (s : MixState) (op : StackOp)
    (h : s.current ≠ []) :
    (applyStackOp s op).current.head? = s.current.head?
    ∧ (applyStackOp s op).current ≠ [] := by
  cases op with
  | pushOp g =>
    simp only [applyStackOp, Mix.pushCurrent]
    rcases hcur : s.current with _ | ⟨x, t⟩
    · exact absurd hcur h
    · exact ⟨rfl, by simp⟩
  | popOp =>
    simp only [applyStackOp, Mix.popCurrent]
    split
    · exact ⟨rfl, h⟩
    · rename_i hlen
      rcases hcur : s.current with _ | ⟨x, t⟩
      · exact absurd hcur h
      · rcases t with _ | ⟨y, u⟩
        · exact absurd (by rw [hcur]; rfl) hlen
        · refine ⟨?_, ?_⟩
          · show ((x :: y :: u).dropLast).head? = (x :: y :: u).head?
            rfl
          · show (x :: y :: u).dropLast ≠ []
            simp

/-- C6: When the context stack holds only the root scope (depth 1), a pop
is a no-op — the state is unchanged and `currentGroup` still returns the
root scope — and consequently no sequence of push and pop operations can
ever remove the root scope from the bottom of the stack. -/
theorem root_scope_never_popped (s : MixState) (ops : List StackOp) :
    (s.current.length = 1 →
      Mix.popCurrent s = s
      ∧ Mix.currentGroup (Mix.popCurrent s) = s.current.head?)
    ∧ (s.current ≠ [] →
      (applyStackOps s ops).current.head? = s.current.head?
      ∧ (applyStackOps s ops).current ≠ []) := by
  constructor
  · intro h1
    have hpop : Mix.popCurrent s = s := by
      unfold Mix.popCurrent
      simp [h1]
    refine ⟨hpop, ?_⟩
    rw [hpop]
    obtain ⟨g, hg⟩ := List.length_eq_one.mp h1
    rw [Mix.currentGroup, hg]
    rfl
  · induction ops generalizing s with
    | nil => exact fun h => ⟨rfl, h⟩
    | cons op t ih =>
      intro h
      have hstep := stackOp_preserves_root s op h
      have hrest := ih (applyStackOp s op) hstep.2
      exact ⟨by rw [applyStackOps, List.foldl_cons]
                exact (hrest.1).trans hstep.1,
             by rw [applyStackOps, List.foldl_cons]
                exact hrest.2⟩

theorem root_scope_never_popped_witness :
    Mix.popCurrent wMix0 = wMix0
    ∧ Mix.currentGroup (Mix.popCurrent wMix0) = wMix0.current.head?
    ∧ (applyStackOps wMix0
        [StackOp.popOp, StackOp.pushOp wGroupC, StackOp.popOp,
         StackOp.popOp]).current.head? = wMix0.current.head?
    ∧ (applyStackOps wMix0
        [StackOp.popOp, StackOp.pushOp wGroupC, StackOp.popOp,
         StackOp.popOp]).current ≠ [] :=
  ⟨((root_scope_never_popped wMix0 []).1 rfl).1,
   ((root_scope_never_popped wMix0 []).1 rfl).2,
   ((root_scope_never_popped wMix0
      [StackOp.popOp, StackOp.pushOp wGroupC, StackOp.popOp,
       StackOp.popOp]).2 (by decide)).1,
   ((root_scope_never_popped wMix0
      [StackOp.popOp, StackOp.pushOp wGroupC, StackOp.popOp,
       StackOp.popOp]).2 (by decide)).2⟩

/-- C7: `whileCurrent(fn)` makes the given scope current before invoking
`fn` and restores the previous current scope after `fn` completes, on every
exit path — `fn` is arbitrary here, so the conclusion covers both an `fn`
that returns `ok` and an `fn` that throws/rejects (`error`), whose outcome
is handed back unchanged.  (`fn` is assumed not to manipulate the context
stack itself, as with every hook the orchestrator passes in.) -/
theorem whileCurrent_restores (s : MixState) (g : BuildGroup)
    (fn : MixState → MixState × Except String Unit)
    (hne : s.current ≠ [])
    (hfn : ∀ st, (fn st).1.current = st.current) :
    Mix.currentGroup (Mix.pushCurrent s g) = some g
    ∧ (Mix.whileCurrent s g fn).1.current = s.current
    ∧ Mix.currentGroup (Mix.whileCurrent s g fn).1 = Mix.currentGroup s
    ∧ (Mix.whileCurrent s g fn).2 = (fn (Mix.pushCurrent s g)).2 := by
  have h1 : Mix.currentGroup (Mix.pushCurrent s g) = some g := by
    simp [Mix.currentGroup, Mix.pushCurrent, List.getLast?_concat]
  have hcur : (fn (Mix.pushCurrent s g)).1.current = s.current ++ [g] := by
    rw [hfn]
    rfl
  have hlen : ¬((fn (Mix.pushCurrent s g)).1.current.length = 1) := by
    rw [hcur]
    have hp := List.length_pos.mpr hne
    simp only [List.length_append, List.length_cons, List.length_nil]
    omega
  have h2 : (Mix.whileCurrent s g fn).1.current = s.current := by
    show (Mix.popCurrent (fn (Mix.pushCurrent s g)).1).current = s.current
    unfold Mix.popCurrent
    rw [if_neg hlen]
    show (fn (Mix.pushCurrent s g)).1.current.dropLast = s.current
    rw [hcur, List.dropLast_concat]
  refine ⟨h1, h2, ?_, rfl⟩
  simp only [Mix.currentGroup]
  rw [h2]

theorem whileCurrent_restores_witness :
    Mix.currentGroup (Mix.pushCurrent wMix0 wGroupC) = some wGroupC
    ∧ (Mix.whileCurrent wMix0 wGroupC wRejectingFn).1.current = wMix0.current
    ∧ Mix.currentGroup (Mix.whileCurrent wMix0 wGroupC wRejectingFn).1
        = Mix.currentGroup wMix0
    ∧ (Mix.whileCurrent wMix0 wGroupC wRejectingFn).2
        = (wRejectingFn (Mix.pushCurrent wMix0 wGroupC)).2 :=
  whileCurrent_restores wMix0 wGroupC wRejectingFn (by decide) (fun st => rfl)

/-- A decimal digit character is not a slash. -/
theorem digitChar_ne_slash (d : Nat) (hd : d < 10) :
    Char.ofNat (48 + d) ≠ '/' := by
  interval_cases d <;> decide

/-- Every character of a `hash20` digest is a decimal digit, hence not a
slash. -/
theorem hash20_ne_slash (C : String) : ∀ c ∈ (hash20 C).data, c ≠ '/' := by
  intro c hc
  simp only [hash20, List.mem_map, List.mem_range] at hc
  obtain ⟨i, _, rfl⟩ := hc
  exact digitChar_ne_slash _ (Nat.mod_lt _ (by norm_num))

/-- A list with no slash at all has no double slash. -/
theorem hasDoubleSlash_eq_false_of_ne (l : List Char)
    (h : ∀ c ∈ l, c ≠ '/') : hasDoubleSlash l = false := by
  induction l with
  | nil => rfl
  | cons c t ih =>
    cases t with
    | nil => rfl
    | cons d u =>
      have hd : d ≠ '/' := h d (by simp)
      have ht : hasDoubleSlash (d :: u) = false :=
        ih (fun x hx => h x (by simp at hx ⊢; tauto))
      simp [hasDoubleSlash, hd, ht]

/-- Appending keeps the absence of double slashes, provided the seam does
not create one. -/
theorem hasDoubleSlash_append (l1 l2 : List Char)
    (h1 : hasDoubleSlash l1 = false) (h2 : hasDoubleSlash l2 = false)
    (hj : l1.getLast? = some '/' → l2.head? ≠ some '/') :
    hasDoubleSlash (l1 ++ l2) = false := by
  induction l1 with
  | nil => simpa using h2
  | cons c t ih =>
    cases t with
    | nil =>
      cases l2 with
      | nil => rfl
      | cons d u =>
        have hcd : (decide (c = '/') && decide (d = '/')) = false := by
          by_cases hcs : c = '/'
          · have hd : ¬(d = '/') := by
              intro hds
              exact hj (by simp [hcs]) (by simp [hds])
            simp [hd]
          · simp [hcs]
        simpa [hasDoubleSlash, hcd] using h2
    | cons c2 t2 =>
      simp only [hasDoubleSlash] at h1
      rw [Bool.or_eq_false_iff] at h1
      have hj' : (c2 :: t2).getLast? = some '/' → l2.head? ≠ some '/' := by
        intro hg
        exact hj (by rw [List.getLast?_cons_cons]; exact hg)
      have hrec := ih h1.2 hj'
      simp only [List.cons_append, hasDoubleSlash]
      rw [Bool.or_eq_false_iff]
      refine ⟨h1.1, ?_⟩
      simpa using hrec

/-- After emitting a character, `collapseAux` is the identity on a tail
that creates no double slash. -/
theorem collapseAux_eq_self (c : Char) (t : List Char)
    (h : hasDoubleSlash (c :: t) = false) : collapseAux c t = t := by
  induction t generalizing c with
  | nil => rfl
  | cons d u ih =>
    simp only [hasDoubleSlash] at h
    rw [Bool.or_eq_false_iff] at h
    rw [collapseAux, h.1]
    simp only [Bool.false_eq_true, if_false]
    rw [ih d h.2]

/-- Collapsing slashes is the identity on lists without double slashes. -/
theorem collapseSlashes_eq_self (l : List Char)
    (h : hasDoubleSlash l = false) : collapseSlashes l = l := by
  cases l with
  | nil => rfl
  | cons c t =>
    show c :: collapseAux c t = c :: t
    rw [collapseAux_eq_self c t h]

/-- Helper fact: `path.posix.join('', x)` returns `x` itself for any nonempty `x` free
of double slashes. -/
theorem posixJoin_empty_left (x : String) (hne : x.data ≠ [])
    (hds : hasDoubleSlash x.data = false) : posixJoin "" x = x := by
  have hxe : x.data.isEmpty = false := by
    cases hd : x.data
    · exact absurd hd hne
    · rfl
  simp only [posixJoin, List.isEmpty_nil, if_true]
  rw [hxe]
  simp only [Bool.false_eq_true, if_false]
  rw [collapseSlashes_eq_self _ hds]

/-- C8: Manifest round trip.  After `add("/js/app.js")`, `get("/js/app.js")`
returns the normalized original path with no hash suffix; after
`hash("/js/app.js")` on file content `C`, `get("/js/app.js")` returns
`"/js/app.js?id="` concatenated with the 20-character hash of `C`; hashing
again with unchanged content `C` yields the identical id (the manifest
state is unchanged).  Stated under the default `publicPath` `""`. -/
theorem manifest_round_trip (m : ManifestState) (C : String)
    (hpp : m.publicPath = "") :
    Manifest.get (Manifest.add m "/js/app.js") "/js/app.js"
      = Except.ok "/js/app.js"
    ∧ Manifest.get
        (Manifest.hash (Manifest.add m "/js/app.js") "/js/app.js" C)
        "/js/app.js"
      = Except.ok ("/js/app.js?id=" ++ hash20 C)
    ∧ (hash20 C).length = 20
    ∧ Manifest.hash
        (Manifest.hash (Manifest.add m "/js/app.js") "/js/app.js" C)
        "/js/app.js" C
      = Manifest.hash (Manifest.add m "/js/app.js") "/js/app.js" C := by
  have hnorm : normalizePath "" "/js/app.js" = "/js/app.js" := by decide
  have hstrip : stripIdSuffix "/js/app.js" = "/js/app.js" := by decide
  have hjoin1 : posixJoin "" "/js/app.js" = "/js/app.js" := by decide
  have hadd : Manifest.add m "/js/app.js"
      = { m with manifest := setKey m.manifest "/js/app.js" "/js/app.js" } := by
    simp only [Manifest.add, hpp, hnorm, hstrip]
  have hval : ("/js/app.js" ++ "?id=" ++ hash20 C)
      = ("/js/app.js?id=" ++ hash20 C) := rfl
  have hhash : Manifest.hash
        { m with manifest := setKey m.manifest "/js/app.js" "/js/app.js" }
        "/js/app.js" C
      = { m with manifest :=
            (setKey (setKey m.manifest "/js/app.js" "/js/app.js")
              "/js/app.js" ("/js/app.js?id=" ++ hash20 C)) } := by
    simp only [Manifest.hash, hpp, hnorm]
    rw [hval]
  refine ⟨?_, ?_, ?_, ?_⟩
  · rw [hadd]
    simp only [Manifest.get, hpp, hnorm]
    rw [getKey_setKey_self]
    show Except.ok (posixJoin "" "/js/app.js") = Except.ok "/js/app.js"
    rw [hjoin1]
  · rw [hadd, hhash]
    simp only [Manifest.get, hpp, hnorm]
    rw [getKey_setKey_self]
    have hds : hasDoubleSlash ("/js/app.js?id=" ++ hash20 C).data = false := by
      rw [String.data_append]
      refine hasDoubleSlash_append _ _ (by decide) ?_ ?_
      · exact hasDoubleSlash_eq_false_of_ne _ (hash20_ne_slash C)
      · intro hg
        exact absurd hg (by decide)
    have hne : ("/js/app.js?id=" ++ hash20 C).data ≠ [] := by
      rw [String.data_append]
      simp
    show Except.ok (posixJoin "" ("/js/app.js?id=" ++ hash20 C))
      = Except.ok ("/js/app.js?id=" ++ hash20 C)
    rw [posixJoin_empty_left _ hne hds]
  · simp [hash20]
  · rw [hadd, hhash]
    simp only [Manifest.hash, hpp, hnorm]
    rw [hval]
    rw [setKey_setKey_self]

theorem manifest_round_trip_witness :
    Manifest.get (Manifest.add ⟨[], ""⟩ "/js/app.js") "/js/app.js"
      = Except.ok "/js/app.js"
    ∧ Manifest.get
        (Manifest.hash (Manifest.add ⟨[], ""⟩ "/js/app.js") "/js/app.js"
          "alpha") "/js/app.js"
      = Except.ok ("/js/app.js?id=" ++ hash20 "alpha")
    ∧ (hash20 "alpha").length = 20
    ∧ Manifest.hash
        (Manifest.hash (Manifest.add ⟨[], ""⟩ "/js/app.js") "/js/app.js"
          "alpha") "/js/app.js" "alpha"
      = Manifest.hash (Manifest.add ⟨[], ""⟩ "/js/app.js") "/js/app.js"
          "alpha" :=
  manifest_round_trip ⟨[], ""⟩ "alpha" rfl

/-- Helper fact: `add` and `hash` never change the public path. -/
theorem foldl_applyOp_publicPath (ops : List Manifest.Op) (m : ManifestState) :
    (ops.foldl Manifest.applyOp m).publicPath = m.publicPath := by
  induction ops generalizing m with
  | nil => rfl
  | cons op t ih =>
    rw [List.foldl_cons, ih]
    cases op <;> rfl

/-- A key no operation writes stays absent through any call sequence. -/
theorem getKey_foldl_none (pp : String) (ops : List Manifest.Op)
    (m : ManifestState) (hm : m.publicPath = pp) (key : String)
    (h : getKey m.manifest key = none)
    (hops : ∀ op ∈ ops, Manifest.keyOf pp op ≠ key) :
    getKey ((ops.foldl Manifest.applyOp m).manifest) key = none := by
  induction ops generalizing m with
  | nil => exact h
  | cons op t ih =>
    rw [List.foldl_cons]
    refine ih (Manifest.applyOp m op) ?_ ?_
      (fun op2 h2 => hops op2 (List.mem_cons_of_mem _ h2))
    · cases op <;> simp [Manifest.applyOp, Manifest.add, Manifest.hash, hm]
    · cases op with
      | addOp q =>
        have hk := hops (Manifest.Op.addOp q) (by simp)
        simp only [Manifest.keyOf] at hk
        simp only [Manifest.applyOp, Manifest.add, hm]
        rw [getKey_setKey_ne _ _ _ _ (Ne.symm hk)]
        exact h
      | hashOp f c =>
        have hk := hops (Manifest.Op.hashOp f c) (by simp)
        simp only [Manifest.keyOf] at hk
        simp only [Manifest.applyOp, Manifest.hash, hm]
        rw [getKey_setKey_ne _ _ _ _ (Ne.symm hk)]
        exact h

/-- C10: For every file path `p` that has never been passed to
`Manifest.add` or `Manifest.hash` over the whole call history (no write
targeted its normalized form), `Manifest.get(p)` does not return a served
path: the lookup yields no entry and the `path.posix.join` over the missing
entry throws a `TypeError` rather than returning any string — in
particular neither `p` itself nor the empty string. -/
theorem get_never_added_fails (publicPath p : String)
    (ops : List Manifest.Op)
    (hops : ∀ op ∈ ops,
      Manifest.keyOf publicPath op ≠ normalizePath publicPath p) :
    Manifest.get (Manifest.applyOps publicPath ops) p
      = Except.error "TypeError: Path must be a string"
    ∧ (∀ r : String,
        Manifest.get (Manifest.applyOps publicPath ops) p ≠ Except.ok r) := by
  have hpp : (Manifest.applyOps publicPath ops).publicPath = publicPath := by
    unfold Manifest.applyOps
    rw [foldl_applyOp_publicPath]
  have hnone : getKey (Manifest.applyOps publicPath ops).manifest
      (normalizePath publicPath p) = none := by
    unfold Manifest.applyOps
    exact getKey_foldl_none publicPath ops ⟨[], publicPath⟩ rfl
      (normalizePath publicPath p) rfl hops
  have hget : Manifest.get (Manifest.applyOps publicPath ops) p
      = Except.error "TypeError: Path must be a string" := by
    simp only [Manifest.get, hpp, hnone]
  exact ⟨hget, fun r hr => by rw [hget] at hr; exact Except.noConfusion hr⟩

theorem get_never_added_fails_witness :
    Manifest.get (Manifest.applyOps "" [Manifest.Op.addOp "/js/other.js"])
      "/js/app.js" = Except.error "TypeError: Path must be a string"
    ∧ (∀ r : String,
        Manifest.get (Manifest.applyOps "" [Manifest.Op.addOp "/js/other.js"])
          "/js/app.js" ≠ Except.ok r) :=
  get_never_added_fails "" "/js/app.js" [Manifest.Op.addOp "/js/other.js"]
    (by decide)

